/-
Verification of the matisse_automation control core against its design spec.

The Python sources are shallowly embedded:
  * machine/hardware state becomes explicit records (`StabState`),
  * instrument commands become elements of trace lists or state updates,
  * Python floats become rationals (ℚ); `round(x, n)` becomes round-half-even
    on rationals, matching Python's tie-breaking,
  * `assert`-guarded operations return `Except String α`, the `.error` branch
    standing for the RangeError raised before any hardware command.

Sources embedded:
  * src/matisse/matisse.py                       (class Matisse)
  * src/matisse_controller/matisse/stabilization_thread.py
  * src/matisse_controller/config/configuration.py (constant values only)
The module matisse/constants.py is not part of the sources, so the values it
provides (motor upper limits, actuator bounds, correction positions, the nudge
and the idle status code) stay parameters of the embedding.
-/
import Mathlib

set_option maxRecDepth 40000

namespace Matisse

/-! ### Rounding as performed by Python `round(x, n)`

`round` in Python rounds to `n` decimal places with ties going to the even
neighbour.  `stabilization_thread.py` line 40:
`drift = round(drift, cfg.get(cfg.WAVEMETER_PRECISION))`. -/

/-- Round a rational to the nearest integer, ties to the even neighbour
(the rounding used by Python's builtin `round`). -/
def roundHalfEven (x : ℚ) : ℤ :=
  let f : ℤ := ⌊x⌋
  let frac : ℚ := x - f
  if frac < 1/2 then f
  else if 1/2 < frac then f + 1
  else if f % 2 = 0 then f else f + 1

/-- Python `round(x, n)`: round `x` to `n` decimal places, ties to even. -/
def pyRound (x : ℚ) (n : ℕ) : ℚ :=
  (roundHalfEven (x * 10 ^ n) : ℚ) / 10 ^ n

/-- Python builtin `abs` on a rational. -/
def pyAbs (q : ℚ) : ℚ := if q < 0 then -q else q

/-! ### Stabilization state and configuration

`StabState` collects the pieces of instrument state that the stabilization
loop reads or writes: the three actuator positions (read back by
`is_any_limit_reached`, written by `reset_stabilization_piezos`), the state of
the reference-cell continuous scan (driven by `start_scan` / `stop_scan`) and
the automatic-correction counter `stabilization_auto_corrections`. -/

/-- Direction of the continuous reference-cell scan (`SCAN_MODE_UP` /
`SCAN_MODE_DOWN` of the constants module). -/
inductive ScanMode where
  | up
  | down
deriving DecidableEq, Repr

/-- State of the continuous scan actuator. -/
inductive ScanStatus where
  | stopped
  | running (mode : ScanMode)
deriving DecidableEq, Repr

/-- Instrument state touched by the stabilization loop. -/
structure StabState where
  refcellPos : ℚ
  slowPiezoPos : ℚ
  piezoEtalonPos : ℚ
  scanStatus : ScanStatus
  autoCorrections : ℕ
deriving DecidableEq, Repr

/-- Configuration and constants used by the loop: the wavemeter precision and
stabilization tolerance (configuration.py), the actuator bounds and the
correction positions (constants module, parameters here). -/
structure StabConfig where
  precision : ℕ
  tolerance : ℚ
  refcellLowerLimit : ℚ
  refcellUpperLimit : ℚ
  slowPiezoLowerLimit : ℚ
  slowPiezoUpperLimit : ℚ
  piezoEtalonLowerLimit : ℚ
  piezoEtalonUpperLimit : ℚ
  refcellCorrectionPos : ℚ
  slowPiezoCorrectionPos : ℚ
  piezoEtalonCorrectionPos : ℚ
deriving DecidableEq, Repr

/-- Model of `Matisse.start_scan(mode)`: start the continuous scan in the given
direction. -/
def startScan (s : StabState) (m : ScanMode) : StabState :=
  { s with scanStatus := .running m }

/-- Model of `Matisse.stop_scan()`: stop the continuous scan. -/
def stopScan (s : StabState) : StabState :=
  { s with scanStatus := .stopped }

/-- Embedding of `Matisse.is_any_limit_reached` (matisse.py lines 301–311): reads the
RefCell, slow piezo and piezo etalon positions and returns true unless every
one is strictly between its lower limit plus 0.05 and its upper limit minus
0.05.  It only issues read queries (`SCAN:NOW?`, `SLOWPIEZO:NOW?`,
`PIEZOETALON:BASELINE?`), modelled here by reading the state. -/
def isAnyLimitReached (c : StabConfig) (s : StabState) : Bool :=
  let offset : ℚ := 5/100
  !(decide (c.refcellLowerLimit + offset < s.refcellPos ∧
      s.refcellPos < c.refcellUpperLimit - offset) &&
    decide (c.slowPiezoLowerLimit + offset < s.slowPiezoPos ∧
      s.slowPiezoPos < c.slowPiezoUpperLimit - offset) &&
    decide (c.piezoEtalonLowerLimit + offset < s.piezoEtalonPos ∧
      s.piezoEtalonPos < c.piezoEtalonUpperLimit - offset))

/-- Embedding of `Matisse.reset_stabilization_piezos` (matisse.py lines 313–316): set the
piezo etalon baseline, the slow piezo and the RefCell scan position to the
configured correction positions. -/
def resetStabilizationPiezos (c : StabConfig) (s : StabState) : StabState :=
  { s with
    piezoEtalonPos := c.piezoEtalonCorrectionPos
    slowPiezoPos := c.slowPiezoCorrectionPos
    refcellPos := c.refcellCorrectionPos }

/-- Embedding of `StabilizationThread.do_stabilization_correction`
(stabilization_thread.py lines 70–78): stop the scan, reset the stabilization
piezos, increment `stabilization_auto_corrections` by one. -/
def doStabilizationCorrection (c : StabConfig) (s : StabState) : StabState :=
  let s := stopScan s
  let s := resetStabilizationPiezos c s
  { s with autoCorrections := s.autoCorrections + 1 }

/-- Result of one pass of the `while True` loop body of
`StabilizationThread.run`: either the loop `break`s out or continues with the
updated instrument state. -/
inductive StabOutcome where
  | exited (s : StabState)
  | continued (s : StabState)
deriving DecidableEq, Repr

/-- One iteration of `StabilizationThread.run` (stabilization_thread.py lines
36–68).  `stopPending` is `messages.qsize() != 0`; `current` is the wavemeter
reading of this iteration; `target` is `matisse.target_wavelength`.  The
event-log calls change no instrument state and are omitted. -/
def stabilizationIteration (c : StabConfig) (target current : ℚ)
    (stopPending : Bool) (s : StabState) : StabOutcome :=
  if stopPending then
    .exited (stopScan s)
  else
    let drift := pyRound (target - current) c.precision
    if pyAbs drift > c.tolerance then
      if drift < 0 then
        if !(isAnyLimitReached c s) then
          .continued (startScan s .down)
        else
          .continued (doStabilizationCorrection c s)
      else
        if !(isAnyLimitReached c s) then
          .continued (startScan s .up)
        else
          .continued (doStabilizationCorrection c s)
    else
      .continued (stopScan s)

/-- Concrete configuration used by the stabilization witnesses: wavemeter
precision 3, tolerance 0.0005 and the correction positions of
configuration.py; actuator bounds `[0, 1]` resp. `[-1, 1]`. -/
def stabWitnessConfig : StabConfig :=
  { precision := 3, tolerance := 5/10000
    refcellLowerLimit := 0, refcellUpperLimit := 1
    slowPiezoLowerLimit := 0, slowPiezoUpperLimit := 1
    piezoEtalonLowerLimit := -1, piezoEtalonUpperLimit := 1
    refcellCorrectionPos := 35/100, slowPiezoCorrectionPos := 35/100
    piezoEtalonCorrectionPos := 0 }

/-- Concrete state used by the stabilization witnesses: every actuator at the
midpoint of its range. -/
def stabWitnessState : StabState :=
  { refcellPos := 1/2, slowPiezoPos := 1/2, piezoEtalonPos := 0
    scanStatus := .stopped, autoCorrections := 0 }

/-- Concrete state with the slow piezo at its upper bound. -/
def stabWitnessStateAtLimit : StabState :=
  { refcellPos := 1/2, slowPiezoPos := 1, piezoEtalonPos := 0
    scanStatus := .running .up, autoCorrections := 3 }

/-! ### Python `range` and the scan windows -/

/-- Helper for `pyRange`, recursing on an explicit fuel bound. -/
def pyRangeAux (step hi : ℤ) : ℕ → ℤ → List ℤ
  | 0, _ => []
  | n + 1, lo => if lo < hi then lo :: pyRangeAux step hi n (lo + step) else []

/-- Python `range(lo, hi, step)` for a positive `step` (the only case the
scans use: steps are the positive configured constants). -/
def pyRange (lo hi step : ℤ) : List ℤ :=
  if 0 < step then pyRangeAux step hi (hi - lo).toNat lo else []

/-- Scan-window computation shared by `Matisse.birefringent_filter_scan`
(matisse.py lines 112–118) and `Matisse.thin_etalon_scan` (lines 186–192):
`lower = center − range`, `upper = center + range`; the `assert` rejects a
window not satisfying `0 < lower < upperLimit`, `0 < upper < upperLimit` and
`lower < upper` — this is the RangeError, raised before any motor move —
otherwise the scan positions are `range(lower, upper, step)`. -/
def scanWindow (center rng step upperLimit : ℤ) : Except String (List ℤ) :=
  let lower := center - rng
  let upper := center + rng
  if 0 < lower ∧ lower < upperLimit ∧ 0 < upper ∧ upper < upperLimit ∧
      lower < upper then
    .ok (pyRange lower upper step)
  else
    .error "RangeError"

/-! ### Motor positioner -/

/-- One hardware interaction of a motor-move operation: the status-polling
busy-wait until the masked status equals `MOTOR_STATUS_IDLE`, or the actual
`MOTBI:POS` / `MOTTE:POS` move command. -/
inductive MotorAction where
  | waitIdle
  | moveCmd (pos : ℤ)
deriving DecidableEq, Repr

/-- Embedding of `Matisse.set_bifi_motor_pos` (lines 150–158) and
`Matisse.set_thin_etalon_motor_pos` (lines 223–231), which differ only in
their upper limit and command strings: positions outside
`(0, upperLimit)` fail the `assert` (RangeError) before any hardware command;
otherwise the motor is polled to idle, the move command issued, and the motor
polled to idle again. -/
def setMotorPosActions (upperLimit pos : ℤ) :
    Except String (List MotorAction) :=
  if 0 < pos ∧ pos < upperLimit then
    .ok [.waitIdle, .moveCmd pos, .waitIdle]
  else
    .error "RangeError"

/-! ### Extremum detection and candidate selection -/

/-- Model of `numpy.ndarray.take(i, mode=clip)` on 1-D data: the index is clipped
into `[0, length − 1]`. -/
def takeClip (data : List ℚ) (i : ℤ) : ℚ :=
  data.getD (min (max i 0) ((data.length : ℤ) - 1)).toNat 0

/-- Model of `numpy.greater`, the comparator of the birefringent scan (line 130). -/
def npGreater (a b : ℚ) : Bool := decide (b < a)

/-- Model of `numpy.less`, the comparator of the thin-etalon scan (line 204). -/
def npLess (a b : ℚ) : Bool := decide (a < b)

/-- Pointwise test of `scipy.signal.argrelextrema`: index `i` qualifies iff
`cmp data[i] data[clip(i ± s)]` holds for every shift `1 ≤ s ≤ order`,
out-of-range neighbour indices being clipped to the array ends exactly as
`numpy.take(..., mode=clip)` does. -/
def relExtremumAt (cmp : ℚ → ℚ → Bool) (data : List ℚ) (order : ℕ)
    (i : ℕ) : Bool :=
  (List.range order).all fun s =>
    cmp (takeClip data i) (takeClip data ((i : ℤ) + ((s : ℤ) + 1))) &&
    cmp (takeClip data i) (takeClip data ((i : ℤ) - ((s : ℤ) + 1)))

/-- Model of `scipy.signal.argrelextrema(data, cmp, order)` on 1-D data: the indices
whose neighbourhood comparison succeeds, in increasing order. -/
def argrelextrema (cmp : ℚ → ℚ → Bool) (data : List ℚ) (order : ℕ) :
    List ℕ :=
  (List.range data.length).filter (relExtremumAt cmp data order)

/-- Helper for `argmin`: fold over the remaining values, keeping the index
of the first smallest value seen so far. -/
def argminAux : List ℚ → ℚ → ℕ → ℕ → ℕ
  | [], _, _, best => best
  | x :: xs, bv, i, best =>
    if x < bv then argminAux xs x (i + 1) i else argminAux xs bv (i + 1) best

/-- Model of `numpy.argmin`: index of the first occurrence of the smallest element
(0 on the empty input, which numpy rejects; the scans only apply it after a
candidate was found). -/
def argmin : List ℚ → ℕ
  | [] => 0
  | x :: xs => argminAux xs x 1 0

/-- Result of the analysis phase of a scan: the candidate motor positions
(one per relative extremum of the smoothed data), the sequence of motor moves
it performs (each candidate is visited to read the wavemeter, then the chosen
position is moved to), and the finally chosen position. -/
structure ScanAnalysis where
  candidatePositions : List ℤ
  visits : List ℤ
  chosenPos : ℤ
deriving DecidableEq, Repr

/-- The analysis phase shared by `birefringent_filter_scan` (lines 127–139)
and `thin_etalon_scan` (lines 201–213).  `smoothed` is the Savitzky–Golay
smoothed signal, one sample per entry of `positions`; `wl p` is the wavemeter
reading with the motor at position `p`.  Extremum indices are
`argrelextrema(smoothed, cmp, order=5)`; each candidate position is visited
and `abs(wavemeter − target)` recorded; the chosen position is the candidate
with the (first) smallest difference, plus the nudge (0 for the birefringent
scan, `THIN_ETALON_NUDGE` for the thin-etalon scan), and it is moved to
last. -/
def scanAnalysis (cmp : ℚ → ℚ → Bool) (positions : List ℤ)
    (smoothed : List ℚ) (wl : ℤ → ℚ) (target : ℚ) (nudge : ℤ) :
    ScanAnalysis :=
  let extrema := argrelextrema cmp smoothed 5
  let cands := extrema.map fun i => positions.getD i 0
  let diffs := cands.map fun p => pyAbs (wl p - target)
  let best := cands.getD (argmin diffs) 0 + nudge
  { candidatePositions := cands, visits := cands ++ [best], chosenPos := best }

/-- Analysis phase of `Matisse.birefringent_filter_scan`: maxima of the
smoothed power data, no nudge. -/
def birefringentScanAnalysis (positions : List ℤ) (smoothed : List ℚ)
    (wl : ℤ → ℚ) (target : ℚ) : ScanAnalysis :=
  scanAnalysis npGreater positions smoothed wl target 0

/-- Analysis phase of `Matisse.thin_etalon_scan`: minima of the smoothed
reflex data, chosen position nudged by `THIN_ETALON_NUDGE`. -/
def thinEtalonScanAnalysis (nudge : ℤ) (positions : List ℤ)
    (smoothed : List ℚ) (wl : ℤ → ℚ) (target : ℚ) : ScanAnalysis :=
  scanAnalysis npLess positions smoothed wl target nudge

/-! ### Target wavelength state -/

/-- The fallback at the top of `birefringent_filter_scan` (lines 109–110),
`thin_etalon_scan` (lines 183–184) and inside `stabilize_on` (lines
283–284): if `target_wavelength` is `None`, set it from the current
wavemeter reading. -/
def ensureTargetWavelength (t : Option ℚ) (reading : ℚ) : Option ℚ :=
  match t with
  | none => some reading
  | some w => some w

/-- The values taken by `target_wavelength` during `set_wavelength(w)`
(lines 91–98), starting from any prior state `t`: after the assignment on
line 93 (before any scan runs), after `birefringent_filter_scan`, and after
`thin_etalon_scan`; `r1`, `r2` are the wavemeter readings the scans would
fall back to. -/
def setWavelengthTargetStates (_t : Option ℚ) (w r1 r2 : ℚ) :
    List (Option ℚ) :=
  let t1 := some w
  let t2 := ensureTargetWavelength t1 r1
  let t3 := ensureTargetWavelength t2 r2
  [t1, t2, t3]

/-- Value of `target_wavelength` after `stabilize_on` (lines 278–286): unchanged when
already stabilizing (warning path), otherwise filled from the wavemeter when
unset, then the stabilization thread starts. -/
def stabilizeOnTarget (alreadyStabilizing : Bool) (t : Option ℚ)
    (reading : ℚ) : Option ℚ :=
  if alreadyStabilizing then t else ensureTargetWavelength t reading

/-! ### Instrument query post-processing -/

/-- Python `str.startswith`, via the character lists. -/
def strStartsWith (pre s : String) : Bool := pre.data.isPrefixOf s.data

/-- Helper for `splitWhite`: accumulate the current field (reversed). -/
def splitWhiteAux : List Char → List Char → List String
  | [], acc => if acc.isEmpty then [] else [String.mk acc.reverse]
  | c :: cs, acc =>
    if c.isWhitespace then
      if acc.isEmpty then splitWhiteAux cs []
      else String.mk acc.reverse :: splitWhiteAux cs []
    else splitWhiteAux cs (c :: acc)

/-- Python `str.split()` with no separator: split on whitespace runs,
discarding empty fields. -/
def splitWhite (s : String) : List String := splitWhiteAux s.data []

/-- Outcome of the response handling in `Matisse.query`. -/
inductive QueryOutcome where
  | raw (s : String)
  | numeric (token : String)
  | errorRaised
deriving DecidableEq, Repr

/-- Response handling of `Matisse.query` (matisse.py lines 59–66): a
response starting with `!ERROR` raises when `raise_on_error` is set and is
otherwise returned unchanged (the `elif` skips numeric conversion); only a
non-error response with `numeric_result` set is converted, by parsing the
second whitespace-separated token as a float — the embedding keeps the token
itself, since the float value never feeds back into control decisions. -/
def queryPost (result : String) (numericResult raiseOnError : Bool) :
    QueryOutcome :=
  if strStartsWith "!ERROR" result then
    if raiseOnError then .errorRaised else .raw result
  else if numericResult then .numeric ((splitWhite result).getD 1 "")
  else .raw result

/-- Scan positions of the thin-etalon hazard scenario of the safety analysis:
window centred at 500 with range 499 and step 20 under upper limit 1000,
giving positions 1, 21, …, 981. -/
def teHazardPositions : List ℤ := pyRange 1 999 20

/-- Smoothed reflex samples of the hazard scenario: strictly decreasing to
index 48 (motor position 961), then rising, so index 48 is the unique
relative minimum of order 5. -/
def teHazardData : List ℚ :=
  [100, 99, 98, 97, 96, 95, 94, 93, 92, 91,
   90, 89, 88, 87, 86, 85, 84, 83, 82, 81,
   80, 79, 78, 77, 76, 75, 74, 73, 72, 71,
   70, 69, 68, 67, 66, 65, 64, 63, 62, 61,
   60, 59, 58, 57, 56, 55, 54, 53, 52, 60]

end Matisse

namespace Matisse

/-! ### Theorems: stabilization loop (C1), correction (C4), limit check (C7) -/

theorem pyAbs_eq_abs (q : ℚ) : pyAbs q = |q| := by
  unfold pyAbs
  rcases lt_or_le q 0 with h | h
  · rw [if_pos h, abs_of_neg h]
  · rw [if_neg (not_lt.mpr h), abs_of_nonneg h]

theorem stabWitness_no_limit :
    isAnyLimitReached stabWitnessConfig stabWitnessState = false := by
  norm_num [isAnyLimitReached, stabWitnessConfig, stabWitnessState]

theorem stabWitness_at_limit :
    isAnyLimitReached stabWitnessConfig stabWitnessStateAtLimit = true := by
  norm_num [isAnyLimitReached, stabWitnessConfig, stabWitnessStateAtLimit]

/-- C1: In every iteration of the stabilization loop in which no stop message
is pending, the loop computes `drift = pyRound (target − current) precision`;
if `|drift|` exceeds the tolerance and no actuator limit is reached, it starts
the continuous scan down when `drift < 0` and up when `drift > 0`; if
`|drift|` is within tolerance it stops the continuous scan — unconditionally,
whatever the limit check would say, since the source's `else` branch runs
before any `is_any_limit_reached` call. -/
theorem stabilization_iteration_drift_directions (c : StabConfig)
    (target current : ℚ) (s : StabState) :
    let drift := pyRound (target - current) c.precision
    (|drift| > c.tolerance → isAnyLimitReached c s = false → drift < 0 →
      stabilizationIteration c target current false s =
        .continued (startScan s .down)) ∧
    (|drift| > c.tolerance → isAnyLimitReached c s = false → 0 < drift →
      stabilizationIteration c target current false s =
        .continued (startScan s .up)) ∧
    (|drift| ≤ c.tolerance →
      stabilizationIteration c target current false s =
        .continued (stopScan s)) := by
  refine ⟨?_, ?_, ?_⟩
  · intro h1 hlim h2
    simp only [stabilizationIteration, Bool.false_eq_true, if_false,
      pyAbs_eq_abs, hlim, Bool.not_false, if_true]
    rw [if_pos h1, if_pos h2]
  · intro h1 hlim h2
    simp only [stabilizationIteration, Bool.false_eq_true, if_false,
      pyAbs_eq_abs, hlim, Bool.not_false, if_true]
    rw [if_pos h1, if_neg (by exact not_lt.mpr h2.le)]
  · intro h1
    simp only [stabilizationIteration, Bool.false_eq_true, if_false,
      pyAbs_eq_abs]
    rw [if_neg (not_lt.mpr h1)]

/-- Witness for C1 at concrete inputs: precision 3, tolerance 0.0005, and
drifts of −0.01 nm (scan goes down), +0.01 nm (scan goes up) and +0.0001 nm
(scan stops) with all actuators well inside their limits; the stop clause is
additionally exercised at a state with the slow piezo at its upper bound. -/
theorem stabilization_iteration_drift_directions_witness :
    stabilizationIteration stabWitnessConfig 700 (700 - 1/100) false
      stabWitnessState = .continued (startScan stabWitnessState .up) ∧
    stabilizationIteration stabWitnessConfig 700 (700 + 1/100) false
      stabWitnessState = .continued (startScan stabWitnessState .down) ∧
    stabilizationIteration stabWitnessConfig 700 (700 + 1/10000) false
      stabWitnessState = .continued (stopScan stabWitnessState) ∧
    stabilizationIteration stabWitnessConfig 700 (700 + 1/10000) false
      stabWitnessStateAtLimit =
      .continued (stopScan stabWitnessStateAtLimit) := by
  refine ⟨?_, ?_, ?_, ?_⟩
  · exact (stabilization_iteration_drift_directions stabWitnessConfig
      700 (700 - 1/100) stabWitnessState).2.1
      (by norm_num [pyRound, roundHalfEven, stabWitnessConfig, abs])
      stabWitness_no_limit
      (by norm_num [pyRound, roundHalfEven, stabWitnessConfig, abs])
  · exact (stabilization_iteration_drift_directions stabWitnessConfig
      700 (700 + 1/100) stabWitnessState).1
      (by norm_num [pyRound, roundHalfEven, stabWitnessConfig, abs])
      stabWitness_no_limit
      (by norm_num [pyRound, roundHalfEven, stabWitnessConfig, abs])
  · exact (stabilization_iteration_drift_directions stabWitnessConfig
      700 (700 + 1/10000) stabWitnessState).2.2
      (by norm_num [pyRound, roundHalfEven, stabWitnessConfig, abs])
  · exact (stabilization_iteration_drift_directions stabWitnessConfig
      700 (700 + 1/10000) stabWitnessStateAtLimit).2.2
      (by norm_num [pyRound, roundHalfEven, stabWitnessConfig, abs])

/-- C4: when the stabilization loop finds `|drift|` above tolerance while some
actuator is at a limit, the iteration performs `do_stabilization_correction`:
the continuous scan is stopped, the RefCell, slow piezo and piezo etalon are
set to exactly their configured correction positions, and the
automatic-correction counter grows by exactly one. -/
theorem stabilization_correction_on_limit (c : StabConfig)
    (target current : ℚ) (s : StabState)
    (hlim : isAnyLimitReached c s = true)
    (hdrift : |pyRound (target - current) c.precision| > c.tolerance) :
    stabilizationIteration c target current false s =
      .continued (doStabilizationCorrection c s) ∧
    (doStabilizationCorrection c s).scanStatus = .stopped ∧
    (doStabilizationCorrection c s).refcellPos = c.refcellCorrectionPos ∧
    (doStabilizationCorrection c s).slowPiezoPos = c.slowPiezoCorrectionPos ∧
    (doStabilizationCorrection c s).piezoEtalonPos =
      c.piezoEtalonCorrectionPos ∧
    (doStabilizationCorrection c s).autoCorrections =
      s.autoCorrections + 1 := by
  refine ⟨?_, rfl, rfl, rfl, rfl, rfl⟩
  simp only [stabilizationIteration, Bool.false_eq_true, if_false,
    pyAbs_eq_abs, hlim, Bool.not_true]
  rw [if_pos hdrift]
  rcases lt_or_le (pyRound (target - current) c.precision) 0 with h | h
  · rw [if_pos h]
  · rw [if_neg (not_lt.mpr h)]

/-- Witness for C4: slow piezo at its upper bound, drift +0.01 nm above the
0.0005 nm tolerance. -/
theorem stabilization_correction_on_limit_witness :
    stabilizationIteration stabWitnessConfig 700 (700 - 1/100) false
      stabWitnessStateAtLimit =
      .continued (doStabilizationCorrection stabWitnessConfig
        stabWitnessStateAtLimit) ∧
    (doStabilizationCorrection stabWitnessConfig
        stabWitnessStateAtLimit).autoCorrections = 4 :=
  ⟨(stabilization_correction_on_limit stabWitnessConfig 700 (700 - 1/100)
      stabWitnessStateAtLimit stabWitness_at_limit
      (by norm_num [pyRound, roundHalfEven, stabWitnessConfig, abs])).1,
   rfl⟩

/-- C7: `is_any_limit_reached` returns true iff at least one of the three read
positions (RefCell, slow piezo, piezo etalon) lies within the fixed offset
0.05 of that actuator's configured lower or upper bound, i.e. at or outside
the safety margin `(lower + 0.05, upper − 0.05)`; in particular it returns
false when all three positions are strictly inside their bounds by more than
the offset.  In the embedding it is a pure function of the read positions:
it issues no state-changing command. -/
theorem is_any_limit_reached_characterization (c : StabConfig)
    (s : StabState) :
    (isAnyLimitReached c s = true ↔
      (s.refcellPos ≤ c.refcellLowerLimit + 5/100 ∨
        c.refcellUpperLimit - 5/100 ≤ s.refcellPos) ∨
      (s.slowPiezoPos ≤ c.slowPiezoLowerLimit + 5/100 ∨
        c.slowPiezoUpperLimit - 5/100 ≤ s.slowPiezoPos) ∨
      (s.piezoEtalonPos ≤ c.piezoEtalonLowerLimit + 5/100 ∨
        c.piezoEtalonUpperLimit - 5/100 ≤ s.piezoEtalonPos)) ∧
    (c.refcellLowerLimit + 5/100 < s.refcellPos →
      s.refcellPos < c.refcellUpperLimit - 5/100 →
      c.slowPiezoLowerLimit + 5/100 < s.slowPiezoPos →
      s.slowPiezoPos < c.slowPiezoUpperLimit - 5/100 →
      c.piezoEtalonLowerLimit + 5/100 < s.piezoEtalonPos →
      s.piezoEtalonPos < c.piezoEtalonUpperLimit - 5/100 →
      isAnyLimitReached c s = false) := by
  constructor
  · simp only [isAnyLimitReached, Bool.not_eq_true', Bool.and_eq_false_iff,
      decide_eq_false_iff_not, not_and_or, not_lt]
    tauto
  · intro h1 h2 h3 h4 h5 h6
    simp only [isAnyLimitReached, Bool.not_eq_false', Bool.and_eq_true,
      decide_eq_true_eq]
    exact ⟨⟨⟨h1, h2⟩, h3, h4⟩, h5, h6⟩

/-- Witness for C7: with bounds `[0, 1]` (resp. `[-1, 1]`), the midpoint state
is not at a limit, and the state with the slow piezo at its upper bound is. -/
theorem is_any_limit_reached_characterization_witness :
    isAnyLimitReached stabWitnessConfig stabWitnessState = false ∧
    isAnyLimitReached stabWitnessConfig stabWitnessStateAtLimit = true := by
  constructor
  · exact (is_any_limit_reached_characterization stabWitnessConfig
      stabWitnessState).2
      (by norm_num [stabWitnessConfig, stabWitnessState])
      (by norm_num [stabWitnessConfig, stabWitnessState])
      (by norm_num [stabWitnessConfig, stabWitnessState])
      (by norm_num [stabWitnessConfig, stabWitnessState])
      (by norm_num [stabWitnessConfig, stabWitnessState])
      (by norm_num [stabWitnessConfig, stabWitnessState])
  · exact (is_any_limit_reached_characterization stabWitnessConfig
      stabWitnessStateAtLimit).1.mpr
      (Or.inr (Or.inl (Or.inr
        (by norm_num [stabWitnessConfig, stabWitnessStateAtLimit]))))

/-! ### Theorems: scan windows (C3) and the motor positioner (C5) -/

theorem pyRangeAux_mem_bounds (step hi : ℤ) (hstep : 0 < step) :
    ∀ (n : ℕ) (lo x : ℤ), x ∈ pyRangeAux step hi n lo → lo ≤ x ∧ x < hi := by
  intro n
  induction n with
  | zero =>
    intro lo x hx
    simp [pyRangeAux] at hx
  | succ n ih =>
    intro lo x hx
    simp only [pyRangeAux] at hx
    by_cases h : lo < hi
    · rw [if_pos h] at hx
      rcases List.mem_cons.mp hx with rfl | hx
      · exact ⟨le_refl _, h⟩
      · have h2 := ih (lo + step) x hx
        exact ⟨by omega, h2.2⟩
    · rw [if_neg h] at hx
      simp at hx

theorem pyRangeAux_pairwise (step hi : ℤ) (hstep : 0 < step) :
    ∀ (n : ℕ) (lo : ℤ), List.Pairwise (· < ·) (pyRangeAux step hi n lo) := by
  intro n
  induction n with
  | zero =>
    intro lo
    simp [pyRangeAux]
  | succ n ih =>
    intro lo
    simp only [pyRangeAux]
    by_cases h : lo < hi
    · rw [if_pos h]
      refine List.Pairwise.cons ?_ (ih (lo + step))
      intro x hx
      have h2 := pyRangeAux_mem_bounds step hi hstep n (lo + step) x hx
      omega
    · rw [if_neg h]
      exact List.Pairwise.nil

theorem pyRange_mem_bounds (lo hi step x : ℤ) (hstep : 0 < step)
    (hx : x ∈ pyRange lo hi step) : lo ≤ x ∧ x < hi := by
  unfold pyRange at hx
  rw [if_pos hstep] at hx
  exact pyRangeAux_mem_bounds step hi hstep _ lo x hx

theorem pyRange_pairwise (lo hi step : ℤ) :
    List.Pairwise (· < ·) (pyRange lo hi step) := by
  unfold pyRange
  by_cases hstep : 0 < step
  · rw [if_pos hstep]
    exact pyRangeAux_pairwise step hi hstep _ lo
  · rw [if_neg hstep]
    exact List.Pairwise.nil

/-- C3: for every valid window — `0 < center − range`, `center + range <
upper limit`, a positive range and a positive step — the scan positions are
exactly Python's `range(center − range, center + range, step)`: a strictly
increasing sequence whose members all lie strictly inside `(0, upper
limit)`; for center 1000, range 400, step 4 the window is `range(600, 1400,
4)`, the 200 positions `600 + 4k`, all between 600 and 1399 inclusive; and a
window violating the bounds makes the scan fail with the RangeError (no
positions produced, so no motor move). -/
theorem scan_window_spec (center rng step upperLimit : ℤ)
    (h1 : 0 < center - rng) (h2 : center + rng < upperLimit)
    (h3 : 0 < rng) (h4 : 0 < step) :
    scanWindow center rng step upperLimit =
      .ok (pyRange (center - rng) (center + rng) step) ∧
    List.Pairwise (· < ·) (pyRange (center - rng) (center + rng) step) ∧
    (∀ x ∈ pyRange (center - rng) (center + rng) step,
      0 < x ∧ x < upperLimit) ∧
    scanWindow 1000 400 4 5000 = .ok (pyRange 600 1400 4) ∧
    pyRange 600 1400 4 = (List.range 200).map (fun k => 600 + 4 * (k : ℤ)) ∧
    (∀ c r s u : ℤ,
      ¬(0 < c - r ∧ c - r < u ∧ 0 < c + r ∧ c + r < u ∧ c - r < c + r) →
      scanWindow c r s u = .error "RangeError") := by
  refine ⟨?_, pyRange_pairwise _ _ _, ?_, rfl, by decide, ?_⟩
  · unfold scanWindow
    rw [if_pos ⟨h1, by omega, by omega, h2, by omega⟩]
  · intro x hx
    have h5 := pyRange_mem_bounds _ _ _ x h4 hx
    omega
  · intro c r s u h
    unfold scanWindow
    rw [if_neg h]

/-- Witness for C3 at the concrete scenario center 1000, range 400, step 4,
upper limit 5000. -/
theorem scan_window_spec_witness :
    scanWindow 1000 400 4 5000 = .ok (pyRange 600 1400 4) ∧
    List.Pairwise (· < ·) (pyRange 600 1400 4) ∧
    (∀ x ∈ pyRange 600 1400 4, 0 < x ∧ x < 5000) := by
  have h := scan_window_spec 1000 400 4 5000 (by decide) (by decide)
    (by decide) (by decide)
  exact ⟨h.2.2.2.1, h.2.1, h.2.2.1⟩

/-- C5: for both motors (the birefringent filter and the thin etalon differ
only in their upper limit constant), a requested position `p ≤ 0` or
`p ≥ upper limit` fails with RangeError before any hardware command; for a
valid position the operation polls the motor to idle, issues the move
command, and polls to idle again. -/
theorem set_motor_pos_spec (upperLimit pos : ℤ) :
    (pos ≤ 0 ∨ upperLimit ≤ pos →
      setMotorPosActions upperLimit pos = .error "RangeError") ∧
    (0 < pos → pos < upperLimit →
      setMotorPosActions upperLimit pos =
        .ok [.waitIdle, .moveCmd pos, .waitIdle]) := by
  constructor
  · intro h
    unfold setMotorPosActions
    rw [if_neg (by omega)]
  · intro hpos hlim
    unfold setMotorPosActions
    rw [if_pos ⟨hpos, hlim⟩]

/-- Witness for C5 with upper limit 1000: positions 0 and 1000 are rejected,
position 5 produces poll–move–poll. -/
theorem set_motor_pos_spec_witness :
    setMotorPosActions 1000 0 = .error "RangeError" ∧
    setMotorPosActions 1000 1000 = .error "RangeError" ∧
    setMotorPosActions 1000 5 = .ok [.waitIdle, .moveCmd 5, .waitIdle] :=
  ⟨(set_motor_pos_spec 1000 0).1 (Or.inl (by decide)),
   (set_motor_pos_spec 1000 1000).1 (Or.inr (by decide)),
   (set_motor_pos_spec 1000 5).2 (by decide) (by decide)⟩

/-! ### Theorems: thin-etalon nudge (C6), its overrun hazard (C9),
target wavelength (C8), query error handling (C10) -/

/-- C6: for every thin-etalon scan, the final chosen motor position is
exactly the selected extremum position (`positions[minima][argmin(...)]`)
plus the fixed nudge offset, and the last motor move of the scan is to that
nudged position. -/
theorem thin_etalon_nudge_exact (nudge : ℤ) (positions : List ℤ)
    (smoothed : List ℚ) (wl : ℤ → ℚ) (target : ℚ) :
    (thinEtalonScanAnalysis nudge positions smoothed wl target).chosenPos =
      (thinEtalonScanAnalysis nudge positions smoothed wl
        target).candidatePositions.getD
        (argmin ((thinEtalonScanAnalysis nudge positions smoothed wl
          target).candidatePositions.map fun p => pyAbs (wl p - target)))
        0 + nudge ∧
    (thinEtalonScanAnalysis nudge positions smoothed wl
        target).visits.getLast? =
      some (thinEtalonScanAnalysis nudge positions smoothed wl
        target).chosenPos := by
  refine ⟨rfl, ?_⟩
  show ((thinEtalonScanAnalysis nudge positions smoothed wl
      target).candidatePositions ++
    [(thinEtalonScanAnalysis nudge positions smoothed wl
      target).chosenPos]).getLast? = _
  simp

/-- C8: `set_wavelength` assigns the requested value to the shared target
wavelength first, before any scan runs (and the scans leave it there); each
scan entry point and `stabilize_on` fill an unset target from the wavemeter
reading, so after stabilization starts the target is `some` value, never
`None`. -/
theorem target_wavelength_never_none (t u : Option ℚ) (w r1 r2 reading : ℚ) :
    (setWavelengthTargetStates t w r1 r2).head? = some (some w) ∧
    setWavelengthTargetStates t w r1 r2 = [some w, some w, some w] ∧
    ensureTargetWavelength none reading = some reading ∧
    ensureTargetWavelength u reading = some (u.getD reading) ∧
    stabilizeOnTarget false u reading = some (u.getD reading) := by
  refine ⟨rfl, rfl, rfl, ?_, ?_⟩ <;> cases u <;> rfl

/-! ### Theorems: extremum detection and candidate selection (C2) -/

theorem takeClip_eq (data : List ℚ) (z : ℤ) (j : ℕ) (_hj : j < data.length)
    (hz : min (max z 0) ((data.length : ℤ) - 1) = (j : ℤ)) :
    takeClip data z = data.getD j 0 := by
  unfold takeClip
  congr 1
  omega

/-- Characterization of the order-5 neighbourhood test with clipping: for an
irreflexive strict comparison, index `i` qualifies iff it is interior
(neither endpoint) and its sample beats every other sample at index distance
at most 5. -/
theorem relExtremumAt_iff (cmp : ℚ → ℚ → Bool) (r : ℚ → ℚ → Prop)
    (hcmp : ∀ a b, cmp a b = true ↔ r a b) (hirr : ∀ a, ¬ r a a)
    (data : List ℚ) (i : ℕ) (hi : i < data.length) :
    relExtremumAt cmp data 5 i = true ↔
      (0 < i ∧ i + 1 < data.length ∧
        ∀ j : ℕ, j < data.length → j ≠ i → (i : ℤ) - 5 ≤ (j : ℤ) →
          (j : ℤ) ≤ (i : ℤ) + 5 → r (data.getD i 0) (data.getD j 0)) := by
  constructor
  · intro H
    simp only [relExtremumAt, List.all_eq_true, List.mem_range,
      Bool.and_eq_true, hcmp] at H
    have hpos : 0 < i := by
      by_contra h0
      have h00 := (H 0 (by omega)).2
      rw [takeClip_eq data _ i hi (by omega),
          takeClip_eq data _ i hi (by omega)] at h00
      exact hirr _ h00
    have hlast : i + 1 < data.length := by
      by_contra h0
      have h00 := (H 0 (by omega)).1
      rw [takeClip_eq data _ i hi (by omega),
          takeClip_eq data _ i hi (by omega)] at h00
      exact hirr _ h00
    refine ⟨hpos, hlast, ?_⟩
    intro j hj hne hlow hhigh
    rcases Nat.lt_or_ge j i with hji | hij
    · have h00 := (H (i - j - 1) (by omega)).2
      rw [takeClip_eq data _ i hi (by omega),
          takeClip_eq data _ j hj (by omega)] at h00
      exact h00
    · have hji : i < j := by omega
      have h00 := (H (j - i - 1) (by omega)).1
      rw [takeClip_eq data _ i hi (by omega),
          takeClip_eq data _ j hj (by omega)] at h00
      exact h00
  · rintro ⟨hpos, hlast, hwin⟩
    simp only [relExtremumAt, List.all_eq_true, List.mem_range,
      Bool.and_eq_true, hcmp]
    intro s hs
    constructor
    · rw [takeClip_eq data ((i : ℤ) + ((s : ℤ) + 1))
            (min ((i : ℤ) + ((s : ℤ) + 1)) ((data.length : ℤ) - 1)).toNat
            (by omega) (by omega),
          takeClip_eq data (i : ℤ) i hi (by omega)]
      exact hwin _ (by omega) (by omega) (by omega) (by omega)
    · rw [takeClip_eq data ((i : ℤ) - ((s : ℤ) + 1))
            (max ((i : ℤ) - ((s : ℤ) + 1)) 0).toNat
            (by omega) (by omega),
          takeClip_eq data (i : ℤ) i hi (by omega)]
      exact hwin _ (by omega) (by omega) (by omega) (by omega)

theorem argrelextrema_mem (cmp : ℚ → ℚ → Bool) (data : List ℚ)
    (order : ℕ) (i : ℕ) :
    i ∈ argrelextrema cmp data order ↔
      i < data.length ∧ relExtremumAt cmp data order i = true := by
  unfold argrelextrema
  rw [List.mem_filter, List.mem_range]

theorem argminAux_spec (l : List ℚ) :
    ∀ (bv : ℚ) (i best : ℕ),
      (argminAux l bv i best = best ∧ ∀ x ∈ l, bv ≤ x) ∨
      (∃ k, k < l.length ∧ argminAux l bv i best = i + k ∧
        l.getD k 0 ≤ bv ∧ ∀ x ∈ l, l.getD k 0 ≤ x) := by
  induction l with
  | nil =>
    intro bv i best
    left
    exact ⟨rfl, by simp⟩
  | cons x xs ih =>
    intro bv i best
    simp only [argminAux]
    by_cases hx : x < bv
    · rw [if_pos hx]
      right
      rcases ih x (i + 1) i with ⟨heq, hall⟩ | ⟨k, hk, heq, hle, hall⟩
      · refine ⟨0, by simp, by simpa using heq, by simpa using hx.le, ?_⟩
        intro y hy
        rcases List.mem_cons.mp hy with rfl | hy
        · simp
        · simpa using hall y hy
      · refine ⟨k + 1, by simpa using hk, by rw [heq]; omega, ?_, ?_⟩
        · simpa using hle.trans hx.le
        · intro y hy
          rcases List.mem_cons.mp hy with rfl | hy
          · simpa using hle
          · simpa using hall y hy
    · rw [if_neg hx]
      push_neg at hx
      rcases ih bv (i + 1) best with ⟨heq, hall⟩ | ⟨k, hk, heq, hle, hall⟩
      · left
        refine ⟨heq, ?_⟩
        intro y hy
        rcases List.mem_cons.mp hy with rfl | hy
        · exact hx
        · exact hall y hy
      · right
        refine ⟨k + 1, by simpa using hk, by rw [heq]; omega, ?_, ?_⟩
        · simpa using hle
        · intro y hy
          rcases List.mem_cons.mp hy with rfl | hy
          · simpa using hle.trans hx
          · simpa using hall y hy

/-- The result of `argmin` on a nonempty list is an in-range index of a least element. -/
theorem argmin_spec (l : List ℚ) (h : l ≠ []) :
    argmin l < l.length ∧ ∀ x ∈ l, l.getD (argmin l) 0 ≤ x := by
  cases l with
  | nil => exact absurd rfl h
  | cons x xs =>
    simp only [argmin]
    rcases argminAux_spec xs x 1 0 with ⟨heq, hall⟩ | ⟨k, hk, heq, hle, hall⟩
    · rw [heq]
      refine ⟨by simp, ?_⟩
      intro y hy
      rcases List.mem_cons.mp hy with rfl | hy
      · simp
      · simpa using hall y hy
    · rw [heq]
      have hik : 1 + k = k + 1 := by omega
      rw [hik]
      refine ⟨by simpa using hk, ?_⟩
      intro y hy
      rcases List.mem_cons.mp hy with rfl | hy
      · simpa using hle
      · simpa using hall y hy

/-- Selection of the analysis phase: whenever at least one extremum was
found, the chosen position (nudge removed) is one of the candidate positions
and its recorded wavelength difference is least among all candidates. -/
theorem scanAnalysis_selection (cmp : ℚ → ℚ → Bool) (positions : List ℤ)
    (smoothed : List ℚ) (wl : ℤ → ℚ) (target : ℚ) (nudge : ℤ)
    (h : argrelextrema cmp smoothed 5 ≠ []) :
    let a := scanAnalysis cmp positions smoothed wl target nudge
    (a.chosenPos - nudge) ∈ a.candidatePositions ∧
    ∀ p ∈ a.candidatePositions,
      pyAbs (wl (a.chosenPos - nudge) - target) ≤ pyAbs (wl p - target) := by
  intro a
  have hcands :
      a.candidatePositions =
        (argrelextrema cmp smoothed 5).map fun i => positions.getD i 0 := rfl
  have hcne :
      (argrelextrema cmp smoothed 5).map (fun i => positions.getD i 0) ≠
        [] := by
    intro hc
    exact h (List.map_eq_nil_iff.mp hc)
  have hdne :
      ((argrelextrema cmp smoothed 5).map (fun i => positions.getD i 0)).map
        (fun p => pyAbs (wl p - target)) ≠ [] := by
    intro hc
    exact hcne (List.map_eq_nil_iff.mp hc)
  have hspec := argmin_spec _ hdne
  have hlen :
      (((argrelextrema cmp smoothed 5).map
        (fun i => positions.getD i 0)).map
          (fun p => pyAbs (wl p - target))).length =
      ((argrelextrema cmp smoothed 5).map
        (fun i => positions.getD i 0)).length := List.length_map _ _
  have hidx := hspec.1
  rw [hlen] at hidx
  have hchosen :
      a.chosenPos - nudge =
      ((argrelextrema cmp smoothed 5).map
        (fun i => positions.getD i 0)).getD
          (argmin (((argrelextrema cmp smoothed 5).map
            (fun i => positions.getD i 0)).map
              (fun p => pyAbs (wl p - target)))) 0 := by
    show _ + nudge - nudge = _
    omega
  rw [hcands, hchosen]
  constructor
  · rw [List.getD_eq_getElem _ _ hidx]
    exact List.getElem_mem hidx
  · intro p hp
    have hmem := List.mem_map_of_mem (fun p => pyAbs (wl p - target)) hp
    have hmin := hspec.2 _ hmem
    have hval :
        (((argrelextrema cmp smoothed 5).map
          (fun i => positions.getD i 0)).map
            (fun p => pyAbs (wl p - target))).getD
          (argmin (((argrelextrema cmp smoothed 5).map
            (fun i => positions.getD i 0)).map
              (fun p => pyAbs (wl p - target)))) 0 =
        pyAbs (wl (((argrelextrema cmp smoothed 5).map
          (fun i => positions.getD i 0)).getD
            (argmin (((argrelextrema cmp smoothed 5).map
              (fun i => positions.getD i 0)).map
                (fun p => pyAbs (wl p - target)))) 0) - target) := by
      rw [List.getD_eq_getElem _ _ (by rw [hlen]; exact hidx),
          List.getD_eq_getElem _ _ hidx, List.getElem_map]
    rw [← hval]
    exact hmin

/-- C2: in each scan, the candidate extrema are the relative extrema of the
smoothed signal under the strict 5-samples-each-side neighbourhood
comparison — an index is a candidate iff it is interior and its sample is
strictly greater (birefringent power maxima) resp. strictly less
(thin-etalon reflex minima) than every other sample within 5 indices, the
clipping of `argrelextrema` excluding the endpoints — and whenever
candidates exist, the chosen position is a candidate whose independently
measured wavelength has the smallest absolute difference from the target
wavelength. -/
theorem scan_candidates_and_selection (positions : List ℤ)
    (smoothed : List ℚ) (wl : ℤ → ℚ) (target : ℚ) (nudge : ℤ) :
    (∀ i : ℕ, i ∈ argrelextrema npGreater smoothed 5 ↔
      (i < smoothed.length ∧ 0 < i ∧ i + 1 < smoothed.length ∧
        ∀ j : ℕ, j < smoothed.length → j ≠ i → (i : ℤ) - 5 ≤ (j : ℤ) →
          (j : ℤ) ≤ (i : ℤ) + 5 →
          smoothed.getD j 0 < smoothed.getD i 0)) ∧
    (∀ i : ℕ, i ∈ argrelextrema npLess smoothed 5 ↔
      (i < smoothed.length ∧ 0 < i ∧ i + 1 < smoothed.length ∧
        ∀ j : ℕ, j < smoothed.length → j ≠ i → (i : ℤ) - 5 ≤ (j : ℤ) →
          (j : ℤ) ≤ (i : ℤ) + 5 →
          smoothed.getD i 0 < smoothed.getD j 0)) ∧
    (argrelextrema npGreater smoothed 5 ≠ [] →
      let a := birefringentScanAnalysis positions smoothed wl target
      a.chosenPos ∈ a.candidatePositions ∧
      ∀ p ∈ a.candidatePositions,
        pyAbs (wl a.chosenPos - target) ≤ pyAbs (wl p - target)) ∧
    (argrelextrema npLess smoothed 5 ≠ [] →
      let a := thinEtalonScanAnalysis nudge positions smoothed wl target
      (a.chosenPos - nudge) ∈ a.candidatePositions ∧
      ∀ p ∈ a.candidatePositions,
        pyAbs (wl (a.chosenPos - nudge) - target) ≤
          pyAbs (wl p - target)) := by
  have hgr : ∀ a b : ℚ, npGreater a b = true ↔ b < a := by
    intro a b
    simp [npGreater]
  have hls : ∀ a b : ℚ, npLess a b = true ↔ a < b := by
    intro a b
    simp [npLess]
  refine ⟨?_, ?_, ?_, ?_⟩
  · intro i
    rw [argrelextrema_mem]
    constructor
    · rintro ⟨hi, hrel⟩
      exact ⟨hi, (relExtremumAt_iff npGreater (fun a b => b < a) hgr
        (fun a => lt_irrefl a) smoothed i hi).mp hrel⟩
    · rintro ⟨hi, hrest⟩
      exact ⟨hi, (relExtremumAt_iff npGreater (fun a b => b < a) hgr
        (fun a => lt_irrefl a) smoothed i hi).mpr hrest⟩
  · intro i
    rw [argrelextrema_mem]
    constructor
    · rintro ⟨hi, hrel⟩
      exact ⟨hi, (relExtremumAt_iff npLess (fun a b => a < b) hls
        (fun a => lt_irrefl a) smoothed i hi).mp hrel⟩
    · rintro ⟨hi, hrest⟩
      exact ⟨hi, (relExtremumAt_iff npLess (fun a b => a < b) hls
        (fun a => lt_irrefl a) smoothed i hi).mpr hrest⟩
  · intro h a
    have hsel := scanAnalysis_selection npGreater positions smoothed wl
      target 0 h
    simp only [sub_zero] at hsel
    exact hsel
  · intro h a
    exact scanAnalysis_selection npLess positions smoothed wl target nudge h

/-- Witness for C2: a 13-sample peak signal (single power maximum at index
6) for the birefringent branch, and a 13-sample valley signal (single reflex
minimum at index 6) for the thin-etalon branch, scanned over positions
10 … 22, with the wavemeter reading the position itself and target 16. -/
theorem scan_candidates_and_selection_witness :
    (6 ∈ argrelextrema npGreater
      [0, 1, 2, 3, 4, 5, 6, 5, 4, 3, 2, 1, 0] 5) ∧
    (argrelextrema npGreater [0, 1, 2, 3, 4, 5, 6, 5, 4, 3, 2, 1, 0] 5 ≠
      []) ∧
    (let a := birefringentScanAnalysis
      [10, 11, 12, 13, 14, 15, 16, 17, 18, 19, 20, 21, 22]
      [0, 1, 2, 3, 4, 5, 6, 5, 4, 3, 2, 1, 0] (fun p => (p : ℚ)) 16
     a.chosenPos ∈ a.candidatePositions ∧
     ∀ p ∈ a.candidatePositions,
       pyAbs ((fun p : ℤ => (p : ℚ)) a.chosenPos - 16) ≤
         pyAbs ((fun p : ℤ => (p : ℚ)) p - 16)) ∧
    (argrelextrema npLess [6, 5, 4, 3, 2, 1, 0, 1, 2, 3, 4, 5, 6] 5 ≠
      []) ∧
    (let a := thinEtalonScanAnalysis 50
      [10, 11, 12, 13, 14, 15, 16, 17, 18, 19, 20, 21, 22]
      [6, 5, 4, 3, 2, 1, 0, 1, 2, 3, 4, 5, 6] (fun p => (p : ℚ)) 16
     (a.chosenPos - 50) ∈ a.candidatePositions ∧
     ∀ p ∈ a.candidatePositions,
       pyAbs ((fun p : ℤ => (p : ℚ)) (a.chosenPos - 50) - 16) ≤
         pyAbs ((fun p : ℤ => (p : ℚ)) p - 16)) :=
  ⟨(scan_candidates_and_selection
      [10, 11, 12, 13, 14, 15, 16, 17, 18, 19, 20, 21, 22]
      [0, 1, 2, 3, 4, 5, 6, 5, 4, 3, 2, 1, 0]
      (fun p => (p : ℚ)) 16 50).1 6 |>.mpr (by decide),
   by decide,
   (scan_candidates_and_selection
      [10, 11, 12, 13, 14, 15, 16, 17, 18, 19, 20, 21, 22]
      [0, 1, 2, 3, 4, 5, 6, 5, 4, 3, 2, 1, 0]
      (fun p => (p : ℚ)) 16 50).2.2.1 (by decide),
   by decide,
   (scan_candidates_and_selection
      [10, 11, 12, 13, 14, 15, 16, 17, 18, 19, 20, 21, 22]
      [6, 5, 4, 3, 2, 1, 0, 1, 2, 3, 4, 5, 6]
      (fun p => (p : ℚ)) 16 50).2.2.2 (by decide)⟩

/-- C9: a valid thin-etalon window (center 500, range 499, step 20, upper
limit 1000 — so `0 < center − range` and `center + range < upper limit`)
whose unique reflex minimum sits at motor position 961, two steps below the
window's top: the configured nudge 50 puts the final position at 1011, at or
above the 1000 upper limit, so the final motor move fails with RangeError
after candidate selection — window validity does not make the nudged final
move in-range. -/
theorem thin_etalon_nudge_overrun :
    ((0:ℤ) < 500 - 499 ∧ (500:ℤ) + 499 < 1000) ∧
    scanWindow 500 499 20 1000 = .ok teHazardPositions ∧
    teHazardData.length = teHazardPositions.length ∧
    (thinEtalonScanAnalysis 50 teHazardPositions teHazardData
      (fun _ => 700) 700).candidatePositions = [961] ∧
    (thinEtalonScanAnalysis 50 teHazardPositions teHazardData
      (fun _ => 700) 700).chosenPos = 1011 ∧
    (1000:ℤ) ≤ 1011 ∧
    setMotorPosActions 1000 1011 = .error "RangeError" := by
  refine ⟨by decide, rfl, by decide, by decide, by decide, by decide, rfl⟩

/-- C10: when the instrument's response begins with the `!ERROR` marker and
`raise_on_error` is false, `query` returns the raw error-response string
unchanged and performs no numeric conversion even if `numeric_result` is
true (regardless of `raise_on_error`, an error response is never converted);
numeric conversion — parsing the second whitespace token of the response —
is applied exactly to non-error responses with `numeric_result` set. -/
theorem query_error_handling (s : String) (n r : Bool)
    (h : strStartsWith "!ERROR" s = true) :
    queryPost s n false = .raw s ∧
    (∀ tok : String, ¬ queryPost s n r = .numeric tok) ∧
    (∀ s' : String, strStartsWith "!ERROR" s' = false →
      queryPost s' true r = .numeric ((splitWhite s').getD 1 "")) := by
  refine ⟨?_, ?_, ?_⟩
  · unfold queryPost
    rw [if_pos h]
    rfl
  · intro tok hc
    unfold queryPost at hc
    rw [if_pos h] at hc
    cases r
    · simp at hc
    · simp at hc
  · intro s' h'
    unfold queryPost
    rw [if_neg (by simp [h'])]
    rfl

/-- Witness for C10: the error response `!ERROR 123` with `numeric_result`
set is returned raw when `raise_on_error` is false and is never converted;
the non-error response `:DPOW:DC 1.5` is converted to its second token. -/
theorem query_error_handling_witness :
    queryPost "!ERROR 123" true false = .raw "!ERROR 123" ∧
    (∀ tok : String, ¬ queryPost "!ERROR 123" true true = .numeric tok) ∧
    queryPost ":DPOW:DC 1.5" true true = .numeric "1.5" := by
  have h := query_error_handling "!ERROR 123" true true (by decide)
  refine ⟨h.1, h.2.1, ?_⟩
  have h2 := h.2.2 ":DPOW:DC 1.5" (by decide)
  rw [show (splitWhite ":DPOW:DC 1.5").getD 1 "" = "1.5" from by decide]
    at h2
  exact h2

end Matisse
